import Mathlib

/-!
# Verification of the MPD song-filter parser (`src/song/Filter.cxx`)

A shallow embedding of the song-filter expression parser and the
`SongFilter` facade.  C cursors (`const char *&`) become `List Char`
values threaded through the parsing functions; a C string's terminating
NUL corresponds to the empty list.  Functions that `throw` in C++ return
`Except String`; the thrown message is carried verbatim.  Collaborators
of the parser that live outside `src/song/Filter.cxx` (string utilities,
the tag-name table, URI safety, timestamp and audio-format parsing, the
per-node `Match` implementations and the optimizer) are modelled from
the specification; each such definition is marked `Modelled from the
spec:` in its doc comment.
-/

/-- Modelled from the spec: ASCII lower-casing used by the case-fold
comparisons (`util/CharUtil.hxx` is not under `src/`). -/
def asciiLower (c : Char) : Char :=
  if 65 ≤ c.toNat ∧ c.toNat ≤ 90 then Char.ofNat (c.toNat + 32) else c

/-- Modelled from the spec: ASCII case-insensitive string equality
(`StringEqualsCaseASCII` of `util/ASCII.hxx` is not under `src/`). -/
def StringEqualsCaseASCII (a b : String) : Bool :=
  a.data.map asciiLower == b.data.map asciiLower

/-- Modelled from the spec: `skipLeftWhitespace` "advances past ASCII
spaces/tabs" (`StripLeft` of `util/StringStrip.hxx` is not under `src/`). -/
def StripLeft : List Char → List Char
  | ' ' :: rest => StripLeft rest
  | '\t' :: rest => StripLeft rest
  | s => s

/-- `*s` for a C cursor: the character at offset `i`, NUL past the end. -/
def charAt (s : List Char) (i : Nat) : Char :=
  s.getD i '\x00'

/-- Modelled from the spec: the tag-name table collaborator
(`tag/Type.hxx`/`tag/ParseName.hxx` are not under `src/`); names in the
order of the `TagType` enumeration. -/
def tag_item_names : List String :=
  ["Artist", "ArtistSort", "Album", "AlbumSort", "AlbumArtist",
   "AlbumArtistSort", "Title", "TitleSort", "Track", "Name", "Genre",
   "Mood", "Date", "OriginalDate", "Composer", "ComposerSort",
   "Performer", "Conductor", "Work", "Movement", "MovementNumber",
   "Ensemble", "Location", "Grouping", "Comment", "Disc", "Label"]

def TAG_NUM_OF_ITEM_TYPES : Nat := tag_item_names.length

/-- Index of the first case-insensitive match, or the list length. -/
def tag_name_parse_aux (s : String) : List String → Nat
  | [] => 0
  | n :: rest =>
    if StringEqualsCaseASCII n s then 0 else tag_name_parse_aux s rest + 1

/-- Modelled from the spec: `parseTagName(s) → tagKind | UNKNOWN`, the
case-insensitive tag-name lookup (`tag_name_parse_i`), returning
`TAG_NUM_OF_ITEM_TYPES` when unknown. -/
def tag_name_parse_i (s : String) : Nat :=
  tag_name_parse_aux s tag_item_names

/-- Convenient tag indices (positions in `tag_item_names`). -/
def TAG_ARTIST : Nat := 0
def TAG_ALBUM : Nat := 2
def TAG_TITLE : Nat := 6

/-- `enum` of internal filter-type codes beyond the tag types
(`Filter.cxx` lines 33-45). -/
def LOCATE_TAG_BASE_TYPE : Nat := TAG_NUM_OF_ITEM_TYPES + 1
def LOCATE_TAG_MODIFIED_SINCE : Nat := TAG_NUM_OF_ITEM_TYPES + 2
def LOCATE_TAG_AUDIO_FORMAT : Nat := TAG_NUM_OF_ITEM_TYPES + 3
def LOCATE_TAG_PRIORITY : Nat := TAG_NUM_OF_ITEM_TYPES + 4
def LOCATE_TAG_FILE_TYPE : Nat := TAG_NUM_OF_ITEM_TYPES + 5
def LOCATE_TAG_ANY_TYPE : Nat := TAG_NUM_OF_ITEM_TYPES + 6
def LOCATE_TAG_ADDED_SINCE : Nat := TAG_NUM_OF_ITEM_TYPES + 7

/-- `locate_parse_type` (`Filter.cxx` lines 50-77): keyword resolution,
`TAG_NUM_OF_ITEM_TYPES` on error. -/
def locate_parse_type (str : String) : Nat :=
  if StringEqualsCaseASCII str "file" || StringEqualsCaseASCII str "filename" then
    LOCATE_TAG_FILE_TYPE
  else if StringEqualsCaseASCII str "any" then
    LOCATE_TAG_ANY_TYPE
  else if str = "base" then
    LOCATE_TAG_BASE_TYPE
  else if str = "modified-since" then
    LOCATE_TAG_MODIFIED_SINCE
  else if str = "added-since" then
    LOCATE_TAG_ADDED_SINCE
  else if StringEqualsCaseASCII str "AudioFormat" then
    LOCATE_TAG_AUDIO_FORMAT
  else if StringEqualsCaseASCII str "prio" then
    LOCATE_TAG_PRIORITY
  else
    tag_name_parse_i str

/-- `StringFilter::Position` (ANYWHERE / PREFIX / FULL). -/
inductive SFPosition where
  | ANYWHERE
  | PREFIX
  | FULL
deriving DecidableEq, Repr

/-- `StringFilter`: literal pattern, case-fold flag, position, negation.
The optional compiled regex is absent: the embedding models the build
without `HAVE_PCRE`. -/
structure StringFilter where
  value : String
  fold_case : Bool
  position : SFPosition
  negated : Bool
deriving DecidableEq, Repr

/-- `IsTagNameChar` (`Filter.cxx` lines 120-124): letters, `_`, `-`. -/
def IsTagNameChar (c : Char) : Bool :=
  (('a' ≤ c ∧ c ≤ 'z') ∨ ('A' ≤ c ∧ c ≤ 'Z')) ∨ c = '_' ∨ c = '-'

/-- `ExpectWord` (`Filter.cxx` lines 134-144): a maximal run of tag-name
characters, then left-strip; `Word expected` on an empty run. -/
def ExpectWord (s : List Char) : Except String (String × List Char) :=
  let word := s.takeWhile IsTagNameChar
  if word = [] then .error "Word expected"
  else .ok (String.mk word, StripLeft (s.dropWhile IsTagNameChar))

/-- `ExpectFilterType` (`Filter.cxx` lines 146-156). -/
def ExpectFilterType (s : List Char) : Except String (Nat × List Char) :=
  match ExpectWord s with
  | .error e => .error e
  | .ok (name, s) =>
    let type := locate_parse_type name
    if type = TAG_NUM_OF_ITEM_TYPES then
      .error ("Unknown filter type: " ++ name)
    else
      .ok (type, s)

/-- `IsQuote` (`Filter.cxx` lines 158-162). -/
def IsQuote (c : Char) : Bool :=
  c = '\x22' ∨ c = '\x27'

/-- The scanning loop of `ExpectQuoted` (`Filter.cxx` lines 174-186):
`acc` is the reversed buffer contents.  The C buffer holds 4096 bytes and
the length check `length >= sizeof(buffer)` runs after each store. -/
def expectQuotedLoop (quote : Char) (acc : List Char) :
    List Char → Except String (String × List Char)
  | [] => .error "Closing quote not found"
  | c :: rest =>
    if c = quote then
      .ok (String.mk acc.reverse, StripLeft rest)
    else if c = '\\' then
      match rest with
      | [] => .error "Closing quote not found"
      | c2 :: rest2 =>
        if c2 = '\x00' then .error "Closing quote not found"
        else if 4096 ≤ acc.length + 1 then .error "Quoted value is too long"
        else expectQuotedLoop quote (c2 :: acc) rest2
    else if c = '\x00' then .error "Closing quote not found"
    else if 4096 ≤ acc.length + 1 then .error "Quoted value is too long"
    else expectQuotedLoop quote (c :: acc) rest

/-- `ExpectQuoted` (`Filter.cxx` lines 164-191). -/
def ExpectQuoted (s : List Char) : Except String (String × List Char) :=
  match s with
  | [] => .error "Quoted string expected"
  | quote :: rest =>
    if IsQuote quote then expectQuotedLoop quote [] rest
    else .error "Quoted string expected"

example : ExpectQuoted "\x22ab c\x22  rest".data = .ok ("ab c", "rest".data) := rfl
example : ExpectQuoted "\x22a\\\x22b\x22".data = .ok ("a\x22b", []) := rfl
example : ExpectQuoted "\x22abc".data = .error "Closing quote not found" := rfl
example : ExpectWord "prio >= 5".data = .ok ("prio", ">= 5".data) := rfl
example : locate_parse_type "TITLE" = TAG_TITLE := by decide
example : locate_parse_type "Base" = TAG_NUM_OF_ITEM_TYPES := by decide

/-- `OperatorDef` (`Filter.cxx` lines 198-203): a textual operator with
its trailing-space delimiter included in the pattern. -/
structure OperatorDef where
  opPattern : String
  fold_case : Bool
  negated : Bool
  position : SFPosition

/-- The pre-defined operator table (`Filter.cxx` lines 208-224), in
array order. -/
def operators : List OperatorDef :=
  [⟨"contains_cs ", false, false, .ANYWHERE⟩,
   ⟨"!contains_cs ", false, true, .ANYWHERE⟩,
   ⟨"contains_ci ", true, false, .ANYWHERE⟩,
   ⟨"!contains_ci ", true, true, .ANYWHERE⟩,
   ⟨"starts_with_cs ", false, false, .PREFIX⟩,
   ⟨"!starts_with_cs ", false, true, .PREFIX⟩,
   ⟨"starts_with_ci ", true, false, .PREFIX⟩,
   ⟨"!starts_with_ci ", true, true, .PREFIX⟩,
   ⟨"eq_cs ", false, false, .FULL⟩,
   ⟨"!eq_cs ", false, true, .FULL⟩,
   ⟨"eq_ci ", true, false, .FULL⟩,
   ⟨"!eq_ci ", true, true, .FULL⟩]

/-- Modelled from the spec: `matchPrefixCaseInsensitive(cursor, literal) →
cursor?` (`StringAfterPrefixIgnoreCase` of `util/StringCompare.hxx` is
not under `src/`); the remainder of `s` after the pattern `p`, compared
ASCII case-insensitively. -/
def StringAfterPrefixIgnoreCase : (s p : List Char) → Option (List Char)
  | s, [] => some s
  | [], _ :: _ => none
  | d :: s, c :: p =>
    if asciiLower c = asciiLower d then StringAfterPrefixIgnoreCase s p else none

/-- Modelled from the spec: exact string-prefix remainder
(`StringAfterPrefix` of `util/StringCompare.hxx` is not under `src/`). -/
def StringAfterPrefix : (s p : List Char) → Option (List Char)
  | s, [] => some s
  | [], _ :: _ => none
  | d :: s, c :: p => if c = d then StringAfterPrefix s p else none

/-- Scan of the operator table in order. -/
def findOperator (s : List Char) : List OperatorDef → Option (OperatorDef × List Char)
  | [] => none
  | op :: rest =>
    match StringAfterPrefixIgnoreCase s op.opPattern.data with
    | some after => some (op, after)
    | none => findOperator s rest

/-- One prefix-operator alternative of `ParseStringFilter`: strip the
matched pattern, read the quoted operand, build the filter. -/
def parseOpAfter (after : List Char) (fold_case negated : Bool)
    (position : SFPosition) : Except String (StringFilter × List Char) :=
  match ExpectQuoted (StripLeft after) with
  | .error e => .error e
  | .ok (value, s) => .ok (⟨value, fold_case, position, negated⟩, s)

/-- `ParseStringFilter` (`Filter.cxx` lines 232-317), without the
`HAVE_PCRE` regex block (the embedding models the build without PCRE). -/
def ParseStringFilter (s : List Char) (fold_case : Bool) :
    Except String (StringFilter × List Char) :=
  match findOperator s operators with
  | some (op, after) => parseOpAfter after op.fold_case op.negated op.position
  | none =>
  match StringAfterPrefixIgnoreCase s "contains ".data with
  | some after => parseOpAfter after fold_case false .ANYWHERE
  | none =>
  match StringAfterPrefixIgnoreCase s "!contains ".data with
  | some after => parseOpAfter after fold_case true .ANYWHERE
  | none =>
  match StringAfterPrefixIgnoreCase s "starts_with ".data with
  | some after => parseOpAfter after fold_case false .PREFIX
  | none =>
  match StringAfterPrefixIgnoreCase s "!starts_with ".data with
  | some after => parseOpAfter after fold_case true .PREFIX
  | none =>
  if charAt s 0 = '!' ∧ charAt s 1 = '=' then
    parseOpAfter (s.drop 2) fold_case true .FULL
  else if ¬(charAt s 0 = '=' ∧ charAt s 1 = '=') then
    .error ("Unknown filter operator: " ++ String.mk s)
  else
    parseOpAfter (s.drop 2) fold_case false .FULL

example : ParseStringFilter "== \x22Rain\x22)".data false =
    .ok (⟨"Rain", false, .FULL, false⟩, ")".data) := rfl
example : ParseStringFilter "contains_ci \x22a\x22)".data false =
    .ok (⟨"a", true, .ANYWHERE, false⟩, ")".data) := rfl
example : ParseStringFilter "!= \x22a\x22)".data true =
    .ok (⟨"a", true, .FULL, true⟩, ")".data) := rfl

/-- Song-filter tree nodes: the `ISongFilter` class hierarchy
(`AndSongFilter`, `NotSongFilter`, `UriSongFilter`, `BaseSongFilter`,
`TagSongFilter`, `ModifiedSinceSongFilter`, `AddedSinceSongFilter`,
`AudioFormatSongFilter`, `PrioritySongFilter`) as a tagged variant.
Timestamps are UNIX epoch seconds; an audio format is the triple
(sampleRate, sampleFormat, channels) with 0 as the mask wildcard. -/
inductive ISongFilter where
  | TagSongFilter (tag : Nat) (sf : StringFilter)
  | UriSongFilter (sf : StringFilter)
  | BaseSongFilter (value : String)
  | ModifiedSinceSongFilter (t : Nat)
  | AddedSinceSongFilter (t : Nat)
  | AudioFormatSongFilter (sampleRate sampleFormat channels : Nat)
  | PrioritySongFilter (p : Nat)
  | NotSongFilter (child : ISongFilter)
  | AndSongFilter (children : List ISongFilter)

/-- `SongFilter`: the facade owning the root `And` node; `and_filter` is
the root's child list. -/
structure SongFilter where
  and_filter : List ISongFilter

/-- Split on `/`; `splitSlash [] = [[]]` so an empty string yields one
empty segment. -/
def splitSlash : List Char → List (List Char)
  | [] => [[]]
  | '/' :: r => [] :: splitSlash r
  | c :: r =>
    match splitSlash r with
    | seg :: rest => (c :: seg) :: rest
    | [] => [[c]]

/-- A URI-safe path segment: non-empty and not `..`. -/
def uriSafeSegment (seg : List Char) : Bool :=
  seg ≠ [] ∧ seg ≠ ['.', '.']

/-- Modelled from the spec: URI-safety — "no `..`, no leading `/`, no
empty segments" (`uri_safe_local` of `util/UriUtil.hxx` is not under
`src/`).  A leading or trailing slash and the empty string all produce
an empty segment. -/
def uri_safe_local (s : String) : Bool :=
  (splitSlash s.data).all uriSafeSegment

example : uri_safe_local "A" = true := by decide
example : uri_safe_local "a/b.flac" = true := by decide
example : uri_safe_local "" = false := by decide
example : uri_safe_local "/x" = false := by decide
example : uri_safe_local "x/" = false := by decide
example : uri_safe_local "a//b" = false := by decide
example : uri_safe_local "a/../b" = false := by decide

/-- Days from 1970-01-01 of a proleptic-Gregorian civil date
(standard "days from civil" computation). -/
def daysFromCivil (y : Int) (m d : Nat) : Int :=
  let y : Int := if m ≤ 2 then y - 1 else y
  let era : Int := (if 0 ≤ y then y else y - 399) / 400
  let yoe : Int := y - era * 400
  let mp : Nat := (m + 9) % 12
  let doy : Int := (153 * mp + 2) / 5 + d - 1
  let doe : Int := yoe * 365 + yoe / 4 - yoe / 100 + doy
  era * 146097 + doe - 719468

/-- Read exactly `n` decimal digits. -/
def takeDigits (n : Nat) (s : List Char) : Option (Nat × List Char) :=
  let ds := s.take n
  if ds.length = n ∧ ds.all Char.isDigit then
    some (ds.foldl (fun acc c => acc * 10 + (c.toNat - 48)) 0, s.drop n)
  else
    none

/-- Modelled from the spec: the ISO 8601 collaborator `parseIso8601(s) →
(instant, precision)` (`time/ISO8601.cxx` is not under `src/`), for the
forms `YYYY-MM-DD`, optionally followed by `THH:MM`, `THH:MM:SS` and a
trailing `Z`; date-only is allowed and the time defaults to midnight.
Returns UNIX epoch seconds, or `none` on failure. -/
def ParseISO8601 (s : String) : Option Nat :=
  match takeDigits 4 s.data with
  | none => none
  | some (y, r) =>
  match r with
  | '-' :: r =>
    (match takeDigits 2 r with
     | none => none
     | some (mo, r) =>
     match r with
     | '-' :: r =>
       (match takeDigits 2 r with
        | none => none
        | some (d, r) =>
        let days := daysFromCivil y mo d
        if days < 0 then none
        else
          let base := days.toNat * 86400
          match r with
          | [] => some base
          | 'T' :: r =>
            (match takeDigits 2 r with
             | none => none
             | some (h, r) =>
             match r with
             | ':' :: r =>
               (match takeDigits 2 r with
                | none => none
                | some (mi, r) =>
                match r with
                | [] => some (base + h * 3600 + mi * 60)
                | ['Z'] => some (base + h * 3600 + mi * 60)
                | ':' :: r =>
                  (match takeDigits 2 r with
                   | none => none
                   | some (sec, r) =>
                   match r with
                   | [] => some (base + h * 3600 + mi * 60 + sec)
                   | ['Z'] => some (base + h * 3600 + mi * 60 + sec)
                   | _ => none)
                | _ => none)
             | _ => none)
          | _ => none)
        | _ => none)
  | _ => none

/-- `strtoul`/`strtoull` in base 10: skip C whitespace, optional sign,
maximal digit run; `none` when no digits were converted (`endptr == s`),
otherwise the value and the rest of the cursor.  Out-of-range values
saturate at the 64-bit maximum; a `-` sign wraps modulo `2^64`. -/
def strtoul10 (s : List Char) : Option (Nat × List Char) :=
  let t := s.dropWhile fun c =>
    c = ' ' ∨ c = '\t' ∨ c = '\n' ∨ c = '\x0b' ∨ c = '\x0c' ∨ c = '\x0d'
  let (neg, t2) :=
    match t with
    | '-' :: r => (true, r)
    | '+' :: r => (false, r)
    | _ => (false, t)
  let ds := t2.takeWhile Char.isDigit
  if ds = [] then none
  else
    let n : Nat := ds.foldl (fun acc c => acc * 10 + (c.toNat - 48)) 0
    let n : Nat := if n ≤ 18446744073709551615 then n else 18446744073709551615
    let v := if neg then (18446744073709551616 - n) % 18446744073709551616 else n
    some (v, t2.dropWhile Char.isDigit)

/-- `ParseTimeStamp` (`Filter.cxx` lines 100-118): try ISO 8601 first;
otherwise accept an integral UNIX time stamp consuming the whole string;
otherwise surface the ISO 8601 error. -/
def ParseTimeStamp (s : String) : Except String Nat :=
  match ParseISO8601 s with
  | some t => .ok t
  | none =>
    match strtoul10 s.data with
    | some (v, []) => .ok v
    | _ => .error "Failed to parse time stamp"

example : ParseTimeStamp "2023-01-01" = .ok 1672531200 := rfl
example : ParseTimeStamp "1672531200" = .ok 1672531200 := rfl
example : ParseTimeStamp "bogus" = .error "Failed to parse time stamp" := rfl

/-- Modelled from the spec: the audio-format collaborator
`parseAudioFormat(s, mask) → format` (`pcm/AudioParser.cxx` is not under
`src/`): three `:`-separated fields (sample rate, sample format,
channels), each a decimal or — with `mask` — `*` meaning 0 (wildcard). -/
def ParseAudioFormatField (mask : Bool) (f : List Char) : Option Nat :=
  if f = ['*'] then
    if mask then some 0 else none
  else if f ≠ [] ∧ f.all Char.isDigit then
    some (f.foldl (fun acc c => acc * 10 + (c.toNat - 48)) 0)
  else
    none

/-- Modelled from the spec: `ParseAudioFormat`; see
`ParseAudioFormatField`. -/
def ParseAudioFormat (s : String) (mask : Bool) : Except String ISongFilter :=
  match s.data.splitOn ':' with
  | [r, f, c] =>
    (match ParseAudioFormatField mask r, ParseAudioFormatField mask f,
           ParseAudioFormatField mask c with
     | some r, some f, some c => .ok (.AudioFormatSongFilter r f c)
     | _, _, _ => .error "Failed to parse audio format")
  | _ => .error "Failed to parse audio format"

/-- The two states of `SongFilter::ParseExpression` (`Filter.cxx` lines
319-443): parsing one expression, or the `while (true)` loop collecting
`AND`-joined children of a group (lines 339-349) with the children
gathered so far. -/
inductive ExprJob where
  | expr (s : List Char)
  | group (acc : List ISongFilter) (s : List Char)

/-- The keyword/operand dispatch of `ParseExpression` after
`ExpectFilterType` (`Filter.cxx` lines 366-442); no recursion happens
here. -/
def parseLeafExpression (fold_case : Bool) (type : Nat) (s : List Char) :
    Except String (ISongFilter × List Char) :=
  if type = LOCATE_TAG_MODIFIED_SINCE ∨ type = LOCATE_TAG_ADDED_SINCE then
    match ExpectQuoted s with
    | .error e => .error e
    | .ok (value, s) =>
      match s with
      | ')' :: u =>
        (match ParseTimeStamp value with
         | .error e => .error e
         | .ok t =>
           if type = LOCATE_TAG_MODIFIED_SINCE then
             .ok (.ModifiedSinceSongFilter t, StripLeft u)
           else
             .ok (.AddedSinceSongFilter t, StripLeft u))
      | _ => .error "\x27)\x27 expected"
  else if type = LOCATE_TAG_BASE_TYPE then
    match ExpectQuoted s with
    | .error e => .error e
    | .ok (value, s) =>
      match s with
      | ')' :: u => .ok (.BaseSongFilter value, StripLeft u)
      | _ => .error "\x27)\x27 expected"
  else if type = LOCATE_TAG_AUDIO_FORMAT then
    let mask? : Option Bool :=
      if charAt s 0 = '=' ∧ charAt s 1 = '=' then some false
      else if charAt s 0 = '=' ∧ charAt s 1 = '~' then some true
      else none
    match mask? with
    | none => .error "\x27==\x27 or \x27=~\x27 expected"
    | some mask =>
      match ExpectQuoted (StripLeft (s.drop 2)) with
      | .error e => .error e
      | .ok (value, s) =>
        match ParseAudioFormat value mask with
        | .error e => .error e
        | .ok node =>
          match s with
          | ')' :: u => .ok (node, StripLeft u)
          | _ => .error "\x27)\x27 expected"
  else if type = LOCATE_TAG_PRIORITY then
    if charAt s 0 = '>' ∧ charAt s 1 = '=' then
      match strtoul10 (StripLeft (s.drop 2)) with
      | none => .error "Number expected"
      | some (value, endp) =>
        if 255 < value then .error "Invalid priority value"
        else
          match endp with
          | ')' :: u => .ok (.PrioritySongFilter value, StripLeft u)
          | _ => .error "\x27)\x27 expected"
    else
      .error "\x27>=\x27 expected"
  else
    match ParseStringFilter s fold_case with
    | .error e => .error e
    | .ok (string_filter, s) =>
      match s with
      | ')' :: u =>
        let type := if type = LOCATE_TAG_ANY_TYPE then TAG_NUM_OF_ITEM_TYPES else type
        if type = LOCATE_TAG_FILE_TYPE then
          .ok (.UriSongFilter string_filter, StripLeft u)
        else
          .ok (.TagSongFilter type string_filter, StripLeft u)
      | _ => .error "\x27)\x27 expected"

/-- `SongFilter::ParseExpression` (`Filter.cxx` lines 319-443).  The
recursion is driven by `fuel`, decremented on every recursive call and
loop iteration; the cursor shrinks by at least one character every two
steps, so any fuel past `2 * length + 2` behaves identically (running
out of fuel reports an error, standing in for unbounded C++ recursion).
The entry `assert(*s == '(')` is modelled as an error on violation. -/
def ParseExprFuel (fold_case : Bool) : Nat → ExprJob → Except String (ISongFilter × List Char)
  | 0, _ => .error "Filter expression too deeply nested"
  | fuel + 1, .expr s =>
    match s with
    | '(' :: t =>
      let s := StripLeft t
      if charAt s 0 = '(' then
        match ParseExprFuel fold_case fuel (.expr s) with
        | .error e => .error e
        | .ok (first, s) =>
          match s with
          | ')' :: u => .ok (first, StripLeft u)
          | _ =>
            match ExpectWord s with
            | .error e => .error e
            | .ok (w, s) =>
              if w = "AND" then ParseExprFuel fold_case fuel (.group [first] s)
              else .error "\x27AND\x27 expected"
      else if charAt s 0 = '!' then
        let s := StripLeft (s.drop 1)
        if charAt s 0 = '(' then
          match ParseExprFuel fold_case fuel (.expr s) with
          | .error e => .error e
          | .ok (inner, s) =>
            match s with
            | ')' :: u => .ok (.NotSongFilter inner, StripLeft u)
            | _ => .error "\x27)\x27 expected"
        else
          .error "\x27(\x27 expected"
      else
        match ExpectFilterType s with
        | .error e => .error e
        | .ok (type, s) => parseLeafExpression fold_case type s
    | _ => .error "assertion failed: *s == \x27(\x27"
  | fuel + 1, .group acc s =>
    match ParseExprFuel fold_case fuel (.expr s) with
    | .error e => .error e
    | .ok (x, s) =>
      let acc := acc ++ [x]
      match s with
      | ')' :: u => .ok (.AndSongFilter acc, StripLeft u)
      | _ =>
        match ExpectWord s with
        | .error e => .error e
        | .ok (w, s) =>
          if w = "AND" then ParseExprFuel fold_case fuel (.group acc s)
          else .error "\x27AND\x27 expected"

/-- `SongFilter::ParseExpression` at its standard fuel. -/
def SongFilter.ParseExpression (fold_case : Bool) (s : List Char) :
    Except String (ISongFilter × List Char) :=
  ParseExprFuel fold_case (2 * s.length + 2) (.expr s)

/-- `SongFilter::Parse(tag, value, fold_case)` (`Filter.cxx` lines
445-498), returning the single child the call appends to the root. -/
def SongFilter.ParseTagValue (tag_string value : String) (fold_case : Bool) :
    Except String ISongFilter :=
  let tag := locate_parse_type tag_string
  let position : SFPosition := if fold_case then .ANYWHERE else .FULL
  if tag = TAG_NUM_OF_ITEM_TYPES then
    .error "Unknown filter type"
  else if tag = LOCATE_TAG_BASE_TYPE then
    if ¬uri_safe_local value then .error "Bad URI"
    else .ok (.BaseSongFilter value)
  else if tag = LOCATE_TAG_MODIFIED_SINCE then
    (ParseTimeStamp value).map .ModifiedSinceSongFilter
  else if tag = LOCATE_TAG_ADDED_SINCE then
    (ParseTimeStamp value).map .AddedSinceSongFilter
  else if tag = LOCATE_TAG_FILE_TYPE then
    .ok (.UriSongFilter ⟨value, fold_case, position, false⟩)
  else
    let tag := if tag = LOCATE_TAG_ANY_TYPE then TAG_NUM_OF_ITEM_TYPES else tag
    .ok (.TagSongFilter tag ⟨value, fold_case, position, false⟩)

/-- The `do … while (!args.empty())` loop of
`SongFilter::Parse(std::span)` (`Filter.cxx` lines 506-526).  The
receiver is threaded through; a C++ `throw` becomes a `some`-message
second component, returning the receiver as mutated so far. -/
def SongFilter.ParseArgsLoop (fold_case : Bool) :
    SongFilter → List String → SongFilter × Option String
  | f, [] => (f, none)
  | f, [a] =>
    if charAt a.data 0 = '(' then
      match SongFilter.ParseExpression fold_case a.data with
      | .error e => (f, some e)
      | .ok (node, endc) =>
        if endc = [] then
          (⟨f.and_filter ++ [node]⟩, none)
        else
          (f, some "Unparsed garbage after expression")
    else
      (f, some "Incorrect number of filter arguments")
  | f, a :: v :: rest2 =>
    if charAt a.data 0 = '(' then
      match SongFilter.ParseExpression fold_case a.data with
      | .error e => (f, some e)
      | .ok (node, endc) =>
        if endc = [] then
          SongFilter.ParseArgsLoop fold_case ⟨f.and_filter ++ [node]⟩ (v :: rest2)
        else
          (f, some "Unparsed garbage after expression")
    else
      match SongFilter.ParseTagValue a v fold_case with
      | .error e => (f, some e)
      | .ok node =>
        SongFilter.ParseArgsLoop fold_case ⟨f.and_filter ++ [node]⟩ rest2

/-- `SongFilter::Parse(std::span, fold_case)` (`Filter.cxx` lines
500-527).  The result pairs the receiver's final state with the thrown
message, if any. -/
def SongFilter.ParseArgs (f : SongFilter) (args : List String) (fold_case : Bool) :
    SongFilter × Option String :=
  match args with
  | [] => (f, some "Incorrect number of filter arguments")
  | _ => SongFilter.ParseArgsLoop fold_case f args

example :
    SongFilter.ParseArgs ⟨[]⟩ ["(title == \x22Rain\x22)"] false =
      (⟨[.TagSongFilter TAG_TITLE ⟨"Rain", false, .FULL, false⟩]⟩, none) := rfl
example :
    SongFilter.ParseArgs ⟨[]⟩ ["(base \x22A\x22)"] false =
      (⟨[.BaseSongFilter "A"]⟩, none) := rfl
example :
    SongFilter.ParseArgs ⟨[]⟩ ["(!(artist == \x22x\x22))"] false =
      (⟨[.NotSongFilter (.TagSongFilter TAG_ARTIST ⟨"x", false, .FULL, false⟩)]⟩,
        none) := rfl
example :
    SongFilter.ParseArgs ⟨[]⟩ ["base", "A/B", "title", "Rain"] true =
      (⟨[.BaseSongFilter "A/B",
         .TagSongFilter TAG_TITLE ⟨"Rain", true, .ANYWHERE, false⟩]⟩, none) := rfl

/-- The fold-case test applied to each direct root child by
`SongFilter::HasFoldCase` (`Filter.cxx` lines 541-555): the two
`dynamic_cast`s to `TagSongFilter` and `UriSongFilter`. -/
def itemFoldCase : ISongFilter → Bool
  | .TagSongFilter _ sf => sf.fold_case
  | .UriSongFilter sf => sf.fold_case
  | _ => false

/-- `SongFilter::HasFoldCase` (`Filter.cxx` lines 541-555): `any_of`
over the root's direct children. -/
def SongFilter.HasFoldCase (f : SongFilter) : Bool :=
  f.and_filter.any itemFoldCase

/-- The `dynamic_cast<const BaseSongFilter *>` test. -/
def isBaseChild : ISongFilter → Bool
  | .BaseSongFilter _ => true
  | _ => false

/-- `SongFilter::HasOtherThanBase` (`Filter.cxx` lines 557-565). -/
def SongFilter.HasOtherThanBase (f : SongFilter) : Bool :=
  f.and_filter.any fun i => ¬isBaseChild i

/-- `SongFilter::GetBase` (`Filter.cxx` lines 567-577): the first direct
`Base` child's value, `nullptr` (here `none`) otherwise. -/
def SongFilter.GetBase (f : SongFilter) : Option String :=
  f.and_filter.findSome? fun i =>
    match i with
    | .BaseSongFilter v => some v
    | _ => none

/-- The loop body of `SongFilter::WithoutBasePrefix` (`Filter.cxx` lines
584-604), emitting the children of the result in order.  The C++ char
tests `*s == 0` and `*s == '/'` on the remainder after the prefix become
emptiness/head tests. -/
def withoutBasePrefixLoop (pre : List Char) : List ISongFilter → List ISongFilter
  | [] => []
  | i :: rest =>
    match i with
    | .BaseSongFilter v =>
      (match StringAfterPrefix v.data pre with
       | some s =>
         if s = [] then withoutBasePrefixLoop pre rest
         else if charAt s 0 = '/' then
           (if s.drop 1 = [] then withoutBasePrefixLoop pre rest
            else .BaseSongFilter (String.mk (s.drop 1)) :: withoutBasePrefixLoop pre rest)
         else .BaseSongFilter v :: withoutBasePrefixLoop pre rest
       | none => .BaseSongFilter v :: withoutBasePrefixLoop pre rest)
    | _ => i :: withoutBasePrefixLoop pre rest

/-- `SongFilter::WithoutBasePrefix` (`Filter.cxx` lines 579-607). -/
def SongFilter.WithoutBasePrefix (f : SongFilter) (pre : String) : SongFilter :=
  ⟨withoutBasePrefixLoop pre.data f.and_filter⟩

example :
    (SongFilter.WithoutBasePrefix ⟨[.BaseSongFilter "A/B"]⟩ "A") =
      ⟨[.BaseSongFilter "B"]⟩ := rfl
example :
    (SongFilter.WithoutBasePrefix ⟨[.BaseSongFilter "A"]⟩ "A") = ⟨[]⟩ := rfl
example :
    (SongFilter.WithoutBasePrefix ⟨[.BaseSongFilter "AB"]⟩ "A") =
      ⟨[.BaseSongFilter "AB"]⟩ := rfl

/-- Modelled from the spec: one optimizer pass (§4.5;
`song/OptimizeFilter.cxx` is not under `src/`): optimize children
recursively, flatten a nested `And` into its parent and unwrap a
single-child `And`, collapse `Not(Not(x))`; order is kept.  `fuel`
bounds the recursion depth; any value at least the tree height yields
the spec's normal form (the spec scenarios here have height < 64). -/
def optimizeNodeFuel : Nat → ISongFilter → ISongFilter
  | 0, x => x
  | fuel + 1, x =>
    match x with
    | .AndSongFilter children =>
      let cs := (children.map (optimizeNodeFuel fuel)).flatMap fun c =>
        match c with
        | .AndSongFilter xs => xs
        | c => [c]
      match cs with
      | [single] => single
      | cs => .AndSongFilter cs
    | .NotSongFilter c =>
      (match optimizeNodeFuel fuel c with
       | .NotSongFilter x => x
       | c => .NotSongFilter c)
    | x => x

/-- Modelled from the spec: `SongFilter::Optimize` (§4.5): the root stays
an `And`; its children are optimized and nested `And` children are
spliced into the root. -/
def SongFilter.Optimize (f : SongFilter) : SongFilter :=
  ⟨(f.and_filter.map (optimizeNodeFuel 64)).flatMap fun c =>
    match c with
    | .AndSongFilter xs => xs
    | c => [c]⟩

example :
    SongFilter.Optimize ⟨[.AndSongFilter [.BaseSongFilter "A",
        .TagSongFilter TAG_TITLE ⟨"Rain", false, .FULL, false⟩]]⟩ =
      ⟨[.BaseSongFilter "A",
        .TagSongFilter TAG_TITLE ⟨"Rain", false, .FULL, false⟩]⟩ := rfl

/-- The read-only song view consumed by matching (§6): tags are
(kind, value) pairs. -/
structure LightSong where
  uri : String
  tags : List (Nat × String)
  mtime : Nat
  added : Nat
  audio : Option (Nat × Nat × Nat)
  priority : Nat

/-- Modelled from the spec: `StringFilter::Match` (§4.2;
`song/StringFilter.cxx` is not under `src/`): fold both sides when
`fold_case`, test by position, then apply negation. -/
def StringFilter.MatchString (sf : StringFilter) (input : String) : Bool :=
  let needle := if sf.fold_case then sf.value.data.map asciiLower else sf.value.data
  let hay := if sf.fold_case then input.data.map asciiLower else input.data
  let raw :=
    match sf.position with
    | .FULL => hay = needle
    | .PREFIX => needle.isPrefixOf hay
    | .ANYWHERE => (hay.tails.any fun t => needle.isPrefixOf t)
  xor raw sf.negated

/-- Modelled from the spec: node match semantics (§3 table, §4.3;
the node classes are not under `src/`).  `fuel` bounds the tree depth;
only leaf semantics are exercised by the claims below. -/
def matchFuel (song : LightSong) : Nat → ISongFilter → Bool
  | 0, _ => false
  | fuel + 1, node =>
    match node with
    | .TagSongFilter kind sf =>
      let values :=
        if kind = TAG_NUM_OF_ITEM_TYPES then song.tags.map (·.2)
        else (song.tags.filter (·.1 = kind)).map (·.2)
      if values = [] then sf.negated ∧ sf.MatchString ""
      else values.any sf.MatchString
    | .UriSongFilter sf => sf.MatchString song.uri
    | .BaseSongFilter v =>
      song.uri = v ∨ (v.data ++ ['/']).isPrefixOf song.uri.data
    | .ModifiedSinceSongFilter t => t ≤ song.mtime
    | .AddedSinceSongFilter t => t ≤ song.added
    | .AudioFormatSongFilter r f c =>
      (match song.audio with
       | none => false
       | some (sr, sf, ch) =>
         (r = 0 ∨ r = sr) ∧ (f = 0 ∨ f = sf) ∧ (c = 0 ∨ c = ch))
    | .PrioritySongFilter p => p ≤ song.priority
    | .NotSongFilter child => ¬matchFuel song fuel child
    | .AndSongFilter children => children.all (matchFuel song fuel)

/-- `ISongFilter::Match` at the standard fuel. -/
def ISongFilter.Match (node : ISongFilter) (song : LightSong) : Bool :=
  matchFuel song 64 node

/-- `SongFilter::Match` (`Filter.cxx` lines 535-539): the root `And`. -/
def SongFilter.Match (f : SongFilter) (song : LightSong) : Bool :=
  f.and_filter.all fun i => i.Match song

/-- The sample song of spec §8. -/
def sampleSong : LightSong :=
  { uri := "A/B/song.flac"
    tags := [(TAG_TITLE, "Rain"), (TAG_ARTIST, "Björk")]
    mtime := 1700000000
    added := 1700000100
    audio := some (44100, 16, 2)
    priority := 10 }

example : (ISongFilter.PrioritySongFilter 5).Match sampleSong = true := rfl
example : SongFilter.Match ⟨[.BaseSongFilter "A",
    .TagSongFilter TAG_TITLE ⟨"Rain", false, .FULL, false⟩]⟩ sampleSong = true := rfl

/-- Every step of the argument loop only ever appends to the receiver's
child list, so the original children stay a prefix of the final state,
also when the loop throws. -/
theorem parseArgsLoop_preserves (fold_case : Bool) :
    ∀ (n : Nat) (args : List String) (f : SongFilter), args.length ≤ n →
      f.and_filter <+: (SongFilter.ParseArgsLoop fold_case f args).1.and_filter := by
  intro n
  induction n with
  | zero =>
    intro args f h
    have hargs : args = [] := List.length_eq_zero.mp (Nat.le_zero.mp h)
    subst hargs
    simp [SongFilter.ParseArgsLoop]
  | succ n ih =>
    intro args f h
    match args with
    | [] => simp [SongFilter.ParseArgsLoop]
    | [a] =>
      simp only [SongFilter.ParseArgsLoop]
      split
      · split
        · exact List.prefix_rfl
        · split
          · exact List.prefix_append _ _
          · exact List.prefix_rfl
      · exact List.prefix_rfl
    | a :: v :: rest2 =>
      have hlen1 : (v :: rest2).length ≤ n := by
        simp only [List.length_cons] at h ⊢
        omega
      have hlen2 : rest2.length ≤ n := by
        simp only [List.length_cons] at h
        omega
      simp only [SongFilter.ParseArgsLoop]
      split
      · split
        · exact List.prefix_rfl
        · split
          · exact (List.prefix_append _ _).trans (ih _ _ hlen1)
          · exact List.prefix_rfl
      · split
        · exact List.prefix_rfl
        · exact (List.prefix_append _ _).trans (ih _ _ hlen2)

/-- C1: refuted as stated.  `SongFilter::Parse(std::span)` appends each
parsed child to the root `And` as soon as its argument is consumed, so
when a later argument fails the receiver keeps the children of the
earlier arguments: here the first argument is parsed and appended, then
the dangling second argument throws, leaving one new child behind. -/
theorem C1_partial_append_counterexample :
    SongFilter.ParseArgs ⟨[]⟩ ["(title == \x22a\x22)", "oops"] false =
      (⟨[.TagSongFilter TAG_TITLE ⟨"a", false, .FULL, false⟩]⟩,
        some "Incorrect number of filter arguments") ∧
    [ISongFilter.TagSongFilter TAG_TITLE ⟨"a", false, .FULL, false⟩] ≠
      ([] : List ISongFilter) :=
  ⟨rfl, by simp⟩

/-- C1 (amended): `Parse` is not atomic on failure, but it is monotone:
the receiver's previous children are always preserved as a prefix of its
final child list; on success the parsed children are appended after
them, and on failure the children of the arguments parsed before the
failing one remain appended (partial append is visible). -/
theorem C1_parse_preserves_children (f : SongFilter) (args : List String)
    (fold_case : Bool) :
    f.and_filter <+: (SongFilter.ParseArgs f args fold_case).1.and_filter := by
  cases args with
  | nil => exact List.prefix_rfl
  | cons a rest =>
    exact parseArgsLoop_preserves fold_case (a :: rest).length (a :: rest) f
      (Nat.le_refl _)

/-- Splitting a string that ends in `/` always produces a final empty
segment, after a non-empty front. -/
theorem splitSlash_append_slash (x : List Char) :
    ∃ l, splitSlash (x ++ ['/']) = l ++ [[]] ∧ l ≠ [] := by
  induction x with
  | nil => exact ⟨[[]], rfl, by simp⟩
  | cons c x ih =>
    obtain ⟨l, hl, hne⟩ := ih
    by_cases hc : c = '/'
    · subst hc
      refine ⟨[] :: l, ?_, by simp⟩
      simpa [splitSlash] using hl
    · match l, hne with
      | s :: l2, _ =>
        refine ⟨(c :: s) :: l2, ?_, by simp⟩
        have : splitSlash (c :: (x ++ ['/'])) =
            match splitSlash (x ++ ['/']) with
            | seg :: rest => (c :: seg) :: rest
            | [] => [[c]] := by
          simp [splitSlash, hc]
        rw [List.cons_append, this, hl]
        simp

/-- An argument with a leading slash has an empty first segment. -/
theorem uri_safe_leading_slash (r : List Char) :
    uri_safe_local (String.mk ('/' :: r)) = false := by
  simp [uri_safe_local, splitSlash, uriSafeSegment]

/-- An argument with a trailing slash has an empty last segment. -/
theorem uri_safe_trailing_slash (r : List Char) :
    uri_safe_local (String.mk (r ++ ['/'])) = false := by
  obtain ⟨l, hl, _⟩ := splitSlash_append_slash r
  simp only [uri_safe_local, hl, List.all_append]
  simp [uriSafeSegment]

/-- C2: refuted as stated.  The expression form `(base "...")`
(`Filter.cxx` lines 380-386) constructs a `BaseSongFilter` from the
quoted value with no URI-safety check, so a successfully parsed filter
can hold a `Base` whose prefix contains `..` (or a leading slash, or
empty segments); only the flat pair entry validates. -/
theorem C2_expression_base_unvalidated_counterexample :
    SongFilter.ParseArgs ⟨[]⟩ ["(base \x22..\x22)"] false =
      (⟨[.BaseSongFilter ".."]⟩, none) ∧
    uri_safe_local ".." = false :=
  ⟨rfl, by decide⟩

/-- C2 (amended): only the flat pair entry `("base", value)` enforces the
URI-safety invariant: it rejects a value failing URI-safety (`..`
segment, leading `/`, empty segment — in particular the empty string and
trailing slashes) with `Bad URI` and otherwise appends `Base(value)`;
the expression form `(base "...")` performs no validation, so the
invariant holds for flat-parsed `Base` children only. -/
theorem C2_flat_base_validates :
    (∀ (value : String) (fold_case : Bool),
      SongFilter.ParseTagValue "base" value fold_case =
        if ¬uri_safe_local value then .error "Bad URI"
        else .ok (.BaseSongFilter value)) ∧
    (∀ (fold_case : Bool) (s : List Char) (value : String) (u : List Char),
      ExpectQuoted s = .ok (value, ')' :: u) →
      parseLeafExpression fold_case LOCATE_TAG_BASE_TYPE s =
        .ok (.BaseSongFilter value, StripLeft u)) ∧
    uri_safe_local "" = false ∧
    (∀ r, uri_safe_local (String.mk ('/' :: r)) = false) ∧
    (∀ r, uri_safe_local (String.mk (r ++ ['/'])) = false) := by
  refine ⟨fun _ _ => rfl, ?_, by decide, uri_safe_leading_slash,
    uri_safe_trailing_slash⟩
  intro fold_case s value u h
  rw [parseLeafExpression, if_neg (by decide), if_pos rfl, h]
  rfl

/-- C2 witness: the expression branch builds `Base("..")` from the
quoted token `".."` although that prefix is not URI-safe. -/
theorem C2_flat_base_validates_witness :
    parseLeafExpression false LOCATE_TAG_BASE_TYPE "\x22..\x22)".data =
      .ok (.BaseSongFilter "..", StripLeft []) :=
  C2_flat_base_validates.2.1 false "\x22..\x22)".data ".." [] rfl

/-- The per-child fold-case test succeeds exactly on a `TagMatch` or
`UriMatch` with the fold-case flag set. -/
theorem itemFoldCase_eq_true_iff (c : ISongFilter) :
    itemFoldCase c = true ↔
      (∃ t sf, c = ISongFilter.TagSongFilter t sf ∧ sf.fold_case = true) ∨
      (∃ sf, c = ISongFilter.UriSongFilter sf ∧ sf.fold_case = true) := by
  cases c <;> simp [itemFoldCase]
  exact ⟨fun h => ⟨_, _, ⟨rfl, rfl⟩, h⟩, fun ⟨_, _, ⟨_, hsf⟩, h⟩ => hsf ▸ h⟩

/-- C3: refuted as stated.  `HasFoldCase` inspects only the direct
children of the root `And` (`std::any_of` with two `dynamic_cast`s,
`Filter.cxx` lines 541-555): parsing a grouped expression puts a nested
`And` at the root whose inner `TagMatch` has `foldCase=true`
(`contains_ci`), yet `HasFoldCase` returns `false` because the `And`
child is neither a `TagSongFilter` nor a `UriSongFilter`. -/
theorem C3_nested_foldcase_counterexample :
    SongFilter.ParseArgs ⟨[]⟩
        ["((title contains_ci \x22a\x22) AND (artist == \x22b\x22))"] false =
      (⟨[.AndSongFilter
          [.TagSongFilter TAG_TITLE ⟨"a", true, .ANYWHERE, false⟩,
           .TagSongFilter TAG_ARTIST ⟨"b", false, .FULL, false⟩]]⟩, none) ∧
    SongFilter.HasFoldCase
      ⟨[.AndSongFilter
          [.TagSongFilter TAG_TITLE ⟨"a", true, .ANYWHERE, false⟩,
           .TagSongFilter TAG_ARTIST ⟨"b", false, .FULL, false⟩]]⟩ = false :=
  ⟨rfl, rfl⟩

/-- C3 (amended): `hasFoldCase()` returns true iff some **direct** child
of the root `And` is a `TagMatch` or `UriMatch` node with
`foldCase=true`; nodes nested deeper, inside `And` or `Not` children,
are not examined. -/
theorem C3_hasFoldCase_direct_children (F : SongFilter) :
    F.HasFoldCase = true ↔
      ∃ c ∈ F.and_filter,
        (∃ t sf, c = ISongFilter.TagSongFilter t sf ∧ sf.fold_case = true) ∨
        (∃ sf, c = ISongFilter.UriSongFilter sf ∧ sf.fold_case = true) := by
  rw [SongFilter.HasFoldCase, List.any_eq_true]
  exact exists_congr fun c => and_congr_right fun _ => itemFoldCase_eq_true_iff c

/-- The filter produced by parsing
`((base "A") AND (title == "Rain"))`: a single nested `And` child. -/
def c4Filter : SongFilter :=
  ⟨[.AndSongFilter
      [.BaseSongFilter "A",
       .TagSongFilter TAG_TITLE ⟨"Rain", false, .FULL, false⟩]]⟩

/-- C4: refuted as stated.  Before `Optimize()`, the single argument
parses to one nested `And` child of the root, so `GetBase` — which scans
only the root's direct children for a `BaseSongFilter` — returns null
rather than `"A"`, and `WithoutBasePrefix("A")` clones the `And` child
unchanged instead of yielding `(title == "Rain")`. -/
theorem C4_getbase_before_optimize_counterexample :
    SongFilter.ParseArgs ⟨[]⟩
        ["((base \x22A\x22) AND (title == \x22Rain\x22))"] false =
      (c4Filter, none) ∧
    c4Filter.GetBase = none ∧
    (none : Option String) ≠ some "A" ∧
    c4Filter.WithoutBasePrefix "A" = c4Filter :=
  ⟨rfl, rfl, by decide, rfl⟩

/-- C4 (amended): immediately after `Parse` of
`((base "A") AND (title == "Rain"))` the root holds one nested `And`
child, so `getBase()` is null, `hasOtherThanBase()` is true and
`withoutBasePrefix("A")` returns the filter unchanged; the spec-S3
outcomes — `getBase() == "A"` and `withoutBasePrefix("A")` yielding
`(title == "Rain")` — hold only after `optimize()` has flattened the
nested `And` into the root. -/
theorem C4_s3_after_optimize :
    SongFilter.ParseArgs ⟨[]⟩
        ["((base \x22A\x22) AND (title == \x22Rain\x22))"] false =
      (c4Filter, none) ∧
    c4Filter.GetBase = none ∧
    c4Filter.HasOtherThanBase = true ∧
    c4Filter.WithoutBasePrefix "A" = c4Filter ∧
    c4Filter.Optimize =
      ⟨[.BaseSongFilter "A",
        .TagSongFilter TAG_TITLE ⟨"Rain", false, .FULL, false⟩]⟩ ∧
    c4Filter.Optimize.GetBase = some "A" ∧
    c4Filter.Optimize.HasOtherThanBase = true ∧
    c4Filter.Optimize.WithoutBasePrefix "A" =
      ⟨[.TagSongFilter TAG_TITLE ⟨"Rain", false, .FULL, false⟩]⟩ :=
  ⟨rfl, rfl, rfl, rfl, rfl, rfl, rfl, rfl⟩

/-- `StringAfterPrefix` with the empty pattern returns the whole cursor. -/
theorem StringAfterPrefix_nil (s : List Char) : StringAfterPrefix s [] = some s := by
  cases s <;> rfl

/-- `StringAfterPrefix` in terms of `isPrefixOf` and `drop`. -/
theorem StringAfterPrefix_eq :
    ∀ (p s : List Char), StringAfterPrefix s p =
      if p.isPrefixOf s then some (s.drop p.length) else none := by
  intro p
  induction p with
  | nil => intro s; simp [StringAfterPrefix_nil, List.isPrefixOf]
  | cons c p ih =>
    intro s
    cases s with
    | nil => simp [StringAfterPrefix, List.isPrefixOf]
    | cons d s =>
      by_cases hcd : c = d
      · subst hcd
        simp [StringAfterPrefix, List.isPrefixOf, ih s]
      · simp [StringAfterPrefix, List.isPrefixOf, hcd, Ne.symm hcd]

/-- The per-child mapping stated by claim C5 for `withoutBasePrefix`:
`Base(q)` is dropped when `q` equals the prefix exactly; when the
remainder after the prefix starts with `/` it is dropped if nothing
follows the slash and otherwise becomes `Base` of what follows; any
other `Base` and every non-`Base` child is kept (cloned). -/
def specWithoutBaseChild (p : String) (c : ISongFilter) : Option ISongFilter :=
  match c with
  | .BaseSongFilter q =>
    if q = p then none
    else if p.data.isPrefixOf q.data then
      (if charAt (q.data.drop p.data.length) 0 = '/' then
        (if (q.data.drop p.data.length).drop 1 = [] then none
         else some (.BaseSongFilter (String.mk ((q.data.drop p.data.length).drop 1))))
       else some c)
    else some c
  | _ => some c

/-- Two strings with the same character data are equal. -/
theorem string_ext_of_data {a b : String} (h : a.data = b.data) : a = b := by
  cases a; cases b
  exact congrArg String.mk h

/-- Under `p.data.isPrefixOf q.data`, the remainder is empty exactly
when the strings are equal. -/
theorem prefix_drop_eq_nil_iff_eq {p q : String}
    (hpre : p.data.isPrefixOf q.data = true) :
    q.data.drop p.data.length = [] ↔ q = p := by
  obtain ⟨t, ht⟩ := List.isPrefixOf_iff_prefix.mp hpre
  have hdrop : q.data.drop p.data.length = t := by
    rw [← ht, List.drop_left]
  rw [hdrop]
  constructor
  · intro h0
    subst h0
    exact string_ext_of_data (by rw [← ht, List.append_nil])
  · intro he
    subst he
    have := congrArg List.length ht
    simp only [List.length_append] at this
    simpa using (List.eq_nil_of_length_eq_zero (by omega))

/-- The rewriting loop realises exactly the claimed per-child mapping. -/
theorem withoutBasePrefixLoop_eq_filterMap (p : String) :
    ∀ items : List ISongFilter,
      withoutBasePrefixLoop p.data items =
        items.filterMap (specWithoutBaseChild p) := by
  intro items
  induction items with
  | nil => rfl
  | cons i rest ih =>
    rw [List.filterMap_cons]
    cases i with
    | BaseSongFilter q =>
      show (match StringAfterPrefix q.data p.data with
            | some s =>
              if s = [] then withoutBasePrefixLoop p.data rest
              else if charAt s 0 = '/' then
                (if s.drop 1 = [] then withoutBasePrefixLoop p.data rest
                 else .BaseSongFilter (String.mk (s.drop 1)) ::
                   withoutBasePrefixLoop p.data rest)
              else .BaseSongFilter q :: withoutBasePrefixLoop p.data rest
            | none => .BaseSongFilter q :: withoutBasePrefixLoop p.data rest) = _
      rw [StringAfterPrefix_eq]
      by_cases hpre : p.data.isPrefixOf q.data
      · rw [if_pos hpre]
        show (if q.data.drop p.data.length = [] then withoutBasePrefixLoop p.data rest
              else if charAt (q.data.drop p.data.length) 0 = '/' then
                (if (q.data.drop p.data.length).drop 1 = [] then
                  withoutBasePrefixLoop p.data rest
                 else .BaseSongFilter (String.mk ((q.data.drop p.data.length).drop 1)) ::
                   withoutBasePrefixLoop p.data rest)
              else .BaseSongFilter q :: withoutBasePrefixLoop p.data rest) = _
        by_cases hdq : q.data.drop p.data.length = []
        · have hq : q = p := (prefix_drop_eq_nil_iff_eq hpre).mp hdq
          have hspec : specWithoutBaseChild p (ISongFilter.BaseSongFilter q) = none := by
            simp only [specWithoutBaseChild]
            rw [if_pos hq]
          rw [if_pos hdq, hspec]
          exact ih
        · have hqp : q ≠ p := fun he =>
            hdq ((prefix_drop_eq_nil_iff_eq hpre).mpr he)
          rw [if_neg hdq]
          by_cases hch : charAt (q.data.drop p.data.length) 0 = '/'
          · by_cases hd1 : (q.data.drop p.data.length).drop 1 = []
            · have hspec : specWithoutBaseChild p (ISongFilter.BaseSongFilter q) = none := by
                simp only [specWithoutBaseChild]
                rw [if_neg hqp, if_pos hpre, if_pos hch, if_pos hd1]
              rw [if_pos hch, if_pos hd1, hspec]
              exact ih
            · have hspec : specWithoutBaseChild p (ISongFilter.BaseSongFilter q) =
                  some (.BaseSongFilter (String.mk ((q.data.drop p.data.length).drop 1))) := by
                simp only [specWithoutBaseChild]
                rw [if_neg hqp, if_pos hpre, if_pos hch, if_neg hd1]
              rw [if_pos hch, if_neg hd1, hspec, ih]
          · have hspec : specWithoutBaseChild p (ISongFilter.BaseSongFilter q) =
                some (ISongFilter.BaseSongFilter q) := by
              simp only [specWithoutBaseChild]
              rw [if_neg hqp, if_pos hpre, if_neg hch]
            rw [if_neg hch, hspec, ih]
      · have hqp : q ≠ p := fun he =>
          hpre (he ▸ List.isPrefixOf_iff_prefix.mpr List.prefix_rfl)
        rw [if_neg hpre]
        show (ISongFilter.BaseSongFilter q :: withoutBasePrefixLoop p.data rest) = _
        have hspec : specWithoutBaseChild p (ISongFilter.BaseSongFilter q) =
            some (ISongFilter.BaseSongFilter q) := by
          simp only [specWithoutBaseChild]
          rw [if_neg hqp, if_neg hpre]
        rw [hspec, ih]
    | TagSongFilter t sf =>
      simp [withoutBasePrefixLoop, specWithoutBaseChild, ih]
    | UriSongFilter sf =>
      simp [withoutBasePrefixLoop, specWithoutBaseChild, ih]
    | ModifiedSinceSongFilter t =>
      simp [withoutBasePrefixLoop, specWithoutBaseChild, ih]
    | AddedSinceSongFilter t =>
      simp [withoutBasePrefixLoop, specWithoutBaseChild, ih]
    | AudioFormatSongFilter r f c =>
      simp [withoutBasePrefixLoop, specWithoutBaseChild, ih]
    | PrioritySongFilter pr =>
      simp [withoutBasePrefixLoop, specWithoutBaseChild, ih]
    | NotSongFilter child =>
      simp [withoutBasePrefixLoop, specWithoutBaseChild, ih]
    | AndSongFilter children =>
      simp [withoutBasePrefixLoop, specWithoutBaseChild, ih]

/-- A URI-safe prefix is non-empty and has no leading slash. -/
theorem uri_safe_shape (q : String) (h : uri_safe_local q = true) :
    q.data ≠ [] ∧ ∀ r, q.data ≠ '/' :: r := by
  constructor
  · intro he
    rw [uri_safe_local, he] at h
    simp [splitSlash, uriSafeSegment] at h
  · intro r he
    rw [uri_safe_local, he] at h
    simp [splitSlash, uriSafeSegment] at h

/-- With the empty prefix, the loop keeps every child whose `Base`
values are URI-safe. -/
theorem withoutBasePrefixLoop_empty_identity :
    ∀ items : List ISongFilter,
      (∀ q, ISongFilter.BaseSongFilter q ∈ items → uri_safe_local q = true) →
      withoutBasePrefixLoop [] items = items := by
  intro items
  induction items with
  | nil => intro _; rfl
  | cons i rest ih =>
    intro h
    have hrest : ∀ q, ISongFilter.BaseSongFilter q ∈ rest → uri_safe_local q = true :=
      fun q hq => h q (List.mem_cons_of_mem _ hq)
    cases i with
    | BaseSongFilter q =>
      obtain ⟨hne, hslash⟩ := uri_safe_shape q (h q (List.mem_cons_self _ _))
      show (match StringAfterPrefix q.data [] with
            | some s =>
              if s = [] then withoutBasePrefixLoop [] rest
              else if charAt s 0 = '/' then
                (if s.drop 1 = [] then withoutBasePrefixLoop [] rest
                 else .BaseSongFilter (String.mk (s.drop 1)) ::
                   withoutBasePrefixLoop [] rest)
              else .BaseSongFilter q :: withoutBasePrefixLoop [] rest
            | none => .BaseSongFilter q :: withoutBasePrefixLoop [] rest) = _
      rw [StringAfterPrefix_nil]
      have hch : charAt q.data 0 ≠ '/' := by
        cases hqd : q.data with
        | nil => exact absurd hqd hne
        | cons c r =>
          intro hc
          simp only [charAt, List.getD] at hc
          exact hslash r (by rw [hqd]; simp_all)
      simp [hne, hch, ih hrest]
    | TagSongFilter t sf => simp [withoutBasePrefixLoop, ih hrest]
    | UriSongFilter sf => simp [withoutBasePrefixLoop, ih hrest]
    | ModifiedSinceSongFilter t => simp [withoutBasePrefixLoop, ih hrest]
    | AddedSinceSongFilter t => simp [withoutBasePrefixLoop, ih hrest]
    | AudioFormatSongFilter r2 f c => simp [withoutBasePrefixLoop, ih hrest]
    | PrioritySongFilter pr => simp [withoutBasePrefixLoop, ih hrest]
    | NotSongFilter child => simp [withoutBasePrefixLoop, ih hrest]
    | AndSongFilter children => simp [withoutBasePrefixLoop, ih hrest]

/-- C5: refuted as stated.  `withoutBasePrefix("")` is not the identity
on every `SongFilter`: a `Base` child whose prefix starts with a slash —
constructible through the unvalidated expression form, see C2 — has its
leading slash stripped, changing the filter. -/
theorem C5_empty_prefix_counterexample :
    SongFilter.ParseArgs ⟨[]⟩ ["(base \x22/x\x22)"] false =
      (⟨[.BaseSongFilter "/x"]⟩, none) ∧
    (SongFilter.WithoutBasePrefix ⟨[.BaseSongFilter "/x"]⟩ "").GetBase = some "x" ∧
    SongFilter.GetBase ⟨[.BaseSongFilter "/x"]⟩ = some "/x" ∧
    (some "x" : Option String) ≠ some "/x" :=
  ⟨rfl, rfl, rfl, by decide⟩

/-- C5 (amended): `withoutBasePrefix(p)` maps each direct child exactly
as the claim describes (drop on exact match, drop or re-root on a
slash-aligned remainder, keep otherwise, keep all non-`Base` children),
and `withoutBasePrefix("")` is the identity on every filter whose `Base`
children have URI-safe prefixes (non-empty, no leading slash) — which
includes everything the validating flat entry can build, but not the
slash-prefixed `Base` values admitted by the expression form. -/
theorem C5_withoutBasePrefix_mapping :
    (∀ (F : SongFilter) (p : String),
      (F.WithoutBasePrefix p).and_filter =
        F.and_filter.filterMap (specWithoutBaseChild p)) ∧
    (∀ F : SongFilter,
      (∀ q, ISongFilter.BaseSongFilter q ∈ F.and_filter → uri_safe_local q = true) →
      F.WithoutBasePrefix "" = F) := by
  constructor
  · intro F p
    exact withoutBasePrefixLoop_eq_filterMap p F.and_filter
  · intro F h
    cases F with
    | mk items =>
      show SongFilter.mk (withoutBasePrefixLoop [] items) = SongFilter.mk items
      rw [withoutBasePrefixLoop_empty_identity items h]

/-- C5 witness: the second conjunct applied to the concrete filter
`Base("A")`, whose prefix is URI-safe. -/
theorem C5_withoutBasePrefix_mapping_witness :
    SongFilter.WithoutBasePrefix ⟨[.BaseSongFilter "A"]⟩ "" =
      ⟨[.BaseSongFilter "A"]⟩ :=
  C5_withoutBasePrefix_mapping.2 ⟨[.BaseSongFilter "A"]⟩ (fun q hq => by
    simp at hq
    subst hq
    decide)

/-- C6: refuted as stated.  A quoted operand after `prio >=` makes
`strtoul` convert nothing, so the code throws `Number expected` (the
spec's `BadNumber`), which is a different error from the out-of-range
message `Invalid priority value` (the spec's `BadPriority`). -/
theorem C6_quoted_prio_error_counterexample :
    SongFilter.ParseArgs ⟨[]⟩ ["(prio >= \x225\x22)"] false =
      (⟨[]⟩, some "Number expected") ∧
    "Number expected" ≠ "Invalid priority value" :=
  ⟨rfl, by decide⟩

/-- C6 (amended): the priority filter accepts only `>=` followed by a
bare decimal at most 255: `(prio >= 5)` parses to `PriorityAtLeast 5`,
which matches the sample song of priority 10; a quoted operand
`(prio >= "5")` fails with `Number expected` (the spec's `BadNumber`,
not `BadPriority`); the out-of-range `(prio >= 300)` fails with
`Invalid priority value` (the spec's `BadPriority`). -/
theorem C6_prio_parsing :
    SongFilter.ParseArgs ⟨[]⟩ ["(prio >= 5)"] false =
      (⟨[.PrioritySongFilter 5]⟩, none) ∧
    (ISongFilter.PrioritySongFilter 5).Match sampleSong = true ∧
    SongFilter.ParseArgs ⟨[]⟩ ["(prio >= \x225\x22)"] false =
      (⟨[]⟩, some "Number expected") ∧
    SongFilter.ParseArgs ⟨[]⟩ ["(prio >= 300)"] false =
      (⟨[]⟩, some "Invalid priority value") :=
  ⟨rfl, rfl, rfl, rfl⟩

/-- Escape a value for inclusion in a quoted token delimited by `q`:
the quote character and the backslash receive a backslash escape; every
other byte stands for itself. -/
def encodeQuoted (q : Char) : List Char → List Char
  | [] => []
  | c :: r =>
    if c = q ∨ c = '\\' then '\\' :: c :: encodeQuoted q r
    else c :: encodeQuoted q r

/-- Running the quoted-string loop over an encoded value accumulates
exactly the unescaped bytes; it fails with `Quoted value is too long` as
soon as the accumulated length reaches 4096 (the store happens first,
then `length >= sizeof(buffer)` is checked), and succeeds otherwise. -/
theorem expectQuotedLoop_encode (q : Char) (hq : q = '\x22' ∨ q = '\x27') :
    ∀ (v acc rest : List Char), (∀ c ∈ v, c ≠ '\x00') → acc.length < 4096 →
      expectQuotedLoop q acc (encodeQuoted q v ++ q :: rest) =
        if 4096 ≤ acc.length + v.length then .error "Quoted value is too long"
        else .ok (String.mk (acc.reverse ++ v), StripLeft rest) := by
  have hqbs : ('\\' : Char) ≠ q := by rcases hq with h | h <;> subst h <;> decide
  intro v
  induction v with
  | nil =>
    intro acc rest hnul hacc
    rw [encodeQuoted, List.nil_append, expectQuotedLoop.eq_def]
    dsimp only
    rw [if_pos rfl,
      if_neg (by simp only [List.length_nil, Nat.add_zero]; omega)]
    simp
  | cons c v ih =>
    intro acc rest hnul hacc
    have hcnul : c ≠ '\x00' := hnul c (List.mem_cons_self _ _)
    have hnul2 : ∀ d ∈ v, d ≠ '\x00' := fun d hd => hnul d (List.mem_cons_of_mem _ hd)
    rw [encodeQuoted]
    by_cases hesc : c = q ∨ c = '\\'
    · rw [if_pos hesc, List.cons_append, List.cons_append, expectQuotedLoop.eq_def]
      dsimp only
      rw [if_neg hqbs, if_pos rfl]
      rw [if_neg hcnul]
      by_cases hfull : 4096 ≤ acc.length + 1
      · rw [if_pos hfull, if_pos (by simp only [List.length_cons]; omega)]
      · rw [if_neg hfull,
          ih (c :: acc) rest hnul2 (by simp only [List.length_cons]; omega)]
        exact if_congr (by simp only [List.length_cons]; omega) rfl
          (by simp [List.reverse_cons, List.append_assoc])
    · rw [if_neg hesc, List.cons_append, expectQuotedLoop.eq_def]
      push_neg at hesc
      obtain ⟨hcq, hcbs⟩ := hesc
      dsimp only
      rw [if_neg hcq, if_neg hcbs, if_neg hcnul]
      by_cases hfull : 4096 ≤ acc.length + 1
      · rw [if_pos hfull, if_pos (by simp only [List.length_cons]; omega)]
      · rw [if_neg hfull,
          ih (c :: acc) rest hnul2 (by simp only [List.length_cons]; omega)]
        exact if_congr (by simp only [List.length_cons]; omega) rfl
          (by simp [List.reverse_cons, List.append_assoc])

/-- A run of `a`s needs no escaping. -/
theorem encodeQuoted_replicate_a (n : Nat) :
    encodeQuoted '\x22' (List.replicate n 'a') = List.replicate n 'a' := by
  induction n with
  | zero => rfl
  | succ n ih =>
    rw [List.replicate_succ, encodeQuoted, if_neg (by decide), ih]

/-- C7: refuted as stated.  The buffer holds 4096 bytes and the length
check runs after each store, so the 4096th byte already overflows: a
quoted token whose unescaped value has exactly 4096 bytes — not more —
and which has a matching closing quote still fails with
`Quoted value is too long`. -/
theorem C7_4096_counterexample :
    ExpectQuoted ('\x22' :: (List.replicate 4096 'a' ++ ['\x22'])) =
      .error "Quoted value is too long" ∧
    (List.replicate 4096 'a').length ≤ 4096 := by
  constructor
  · have henc : ('\x22' :: (List.replicate 4096 'a' ++ ['\x22'])) =
        '\x22' :: (encodeQuoted '\x22' (List.replicate 4096 'a') ++ '\x22' :: []) := by
      rw [encodeQuoted_replicate_a]
    rw [henc]
    show (if IsQuote '\x22' then
            expectQuotedLoop '\x22' []
              (encodeQuoted '\x22' (List.replicate 4096 'a') ++ '\x22' :: [])
          else .error "Quoted string expected") = _
    rw [if_pos (by decide),
      expectQuotedLoop_encode '\x22' (Or.inl rfl) (List.replicate 4096 'a') [] []
        (fun c hc => by rw [List.eq_of_mem_replicate hc]; decide) (by decide),
      if_pos (by simp only [List.length_nil, List.length_replicate, Nat.zero_add]; omega)]
  · rw [List.length_replicate]

/-- C7 (amended): `ExpectQuoted` fails with `Quoted value is too long`
exactly when the accumulated unescaped value length reaches 4096 bytes
(that is, exceeds 4095); every quoted token with a matching closing
quote whose unescaped value is at most 4095 bytes (and NUL-free, as any
C string is) parses successfully and returns that value. -/
theorem C7_quoted_length_bound (q : Char) (v rest : List Char)
    (hq : q = '\x22' ∨ q = '\x27') (hnul : ∀ c ∈ v, c ≠ '\x00') :
    ExpectQuoted (q :: (encodeQuoted q v ++ q :: rest)) =
      if v.length ≤ 4095 then .ok (String.mk v, StripLeft rest)
      else .error "Quoted value is too long" := by
  have hqq : IsQuote q = true := by rcases hq with h | h <;> subst h <;> decide
  show (if IsQuote q then expectQuotedLoop q [] (encodeQuoted q v ++ q :: rest)
        else .error "Quoted string expected") = _
  rw [if_pos hqq, expectQuotedLoop_encode q hq v [] rest hnul (by decide)]
  by_cases hlen : v.length ≤ 4095
  · rw [if_neg (by simp only [List.length_nil, Nat.zero_add]; omega), if_pos hlen]
    simp
  · rw [if_pos (by simp only [List.length_nil, Nat.zero_add]; omega), if_neg hlen]

/-- C7 witness: the bound theorem applied to the one-byte value `a`
inside double quotes. -/
theorem C7_quoted_length_bound_witness :
    ExpectQuoted ('\x22' :: (encodeQuoted '\x22' ['a'] ++ '\x22' :: [])) =
      .ok ("a", []) := by
  rw [C7_quoted_length_bound '\x22' ['a'] [] (Or.inl rfl) (by decide),
    if_pos (by decide)]
  rfl

/-- C8: refuted as stated.  When no word at all stands where `AND` is
required — e.g. the next grouped expression follows directly — the
failure comes from `ExpectWord` and reads `Word expected`, not
`'AND' expected`; the latter is raised only when some other word is
present. -/
theorem C8_missing_and_word_expected_counterexample :
    SongFilter.ParseArgs ⟨[]⟩
        ["((title == \x22a\x22) (artist == \x22b\x22))"] false =
      (⟨[]⟩, some "Word expected") ∧
    "Word expected" ≠ "\x27AND\x27 expected" :=
  ⟨rfl, by decide⟩

/-- C8 (amended): a parenthesized group containing a single inner
expression passes it through unchanged (no `And` wrapper); two or more
inner expressions joined by `AND` produce one nested `And` whose
children appear in input order; a group whose separator position holds a
word other than `AND` fails with `'AND' expected`, while a separator
position holding no word (for instance another `(`) fails with
`Word expected`. -/
theorem C8_group_parsing :
    SongFilter.ParseArgs ⟨[]⟩ ["((title == \x22a\x22))"] false =
      (⟨[.TagSongFilter TAG_TITLE ⟨"a", false, .FULL, false⟩]⟩, none) ∧
    SongFilter.ParseArgs ⟨[]⟩
        ["((title == \x22a\x22) AND (artist == \x22b\x22))"] false =
      (⟨[.AndSongFilter
          [.TagSongFilter TAG_TITLE ⟨"a", false, .FULL, false⟩,
           .TagSongFilter TAG_ARTIST ⟨"b", false, .FULL, false⟩]]⟩, none) ∧
    SongFilter.ParseArgs ⟨[]⟩
        ["((title == \x22a\x22) AND (artist == \x22b\x22) AND (album == \x22c\x22))"]
        false =
      (⟨[.AndSongFilter
          [.TagSongFilter TAG_TITLE ⟨"a", false, .FULL, false⟩,
           .TagSongFilter TAG_ARTIST ⟨"b", false, .FULL, false⟩,
           .TagSongFilter TAG_ALBUM ⟨"c", false, .FULL, false⟩]]⟩, none) ∧
    SongFilter.ParseArgs ⟨[]⟩
        ["((title == \x22a\x22) OR (artist == \x22b\x22))"] false =
      (⟨[]⟩, some "\x27AND\x27 expected") ∧
    SongFilter.ParseArgs ⟨[]⟩
        ["((title == \x22a\x22) (artist == \x22b\x22))"] false =
      (⟨[]⟩, some "Word expected") :=
  ⟨rfl, rfl, rfl, rfl, rfl⟩

/-- The tag-name lookup never exceeds the table length. -/
theorem tag_name_parse_aux_le (s : String) :
    ∀ l : List String, tag_name_parse_aux s l ≤ l.length := by
  intro l
  induction l with
  | nil => exact Nat.le_refl _
  | cons n rest ih =>
    rw [tag_name_parse_aux]
    by_cases h : StringEqualsCaseASCII n s
    · rw [if_pos h]
      exact Nat.zero_le _
    · rw [if_neg h, List.length_cons]
      omega

/-- The tag-name lookup returns at most `TAG_NUM_OF_ITEM_TYPES`. -/
theorem tag_name_parse_i_le (s : String) :
    tag_name_parse_i s ≤ TAG_NUM_OF_ITEM_TYPES :=
  tag_name_parse_aux_le s tag_item_names

/-- ASCII case-insensitive equality gives equal lower-cased data. -/
theorem eqCase_lower {a b : String} (h : StringEqualsCaseASCII a b = true) :
    a.data.map asciiLower = b.data.map asciiLower := by
  simpa [StringEqualsCaseASCII] using h

/-- Two case-insensitive matches of the same word transfer: the two
patterns have the same lower-cased data. -/
theorem eqCase_both {w a b : String} (ha : StringEqualsCaseASCII w a = true)
    (hb : StringEqualsCaseASCII w b = true) :
    a.data.map asciiLower = b.data.map asciiLower :=
  (eqCase_lower ha).symm.trans (eqCase_lower hb)

/-- `takeWhile`/`dropWhile` across a satisfying run followed by a
non-satisfying character. -/
theorem takeWhile_append_stop {p : Char → Bool} :
    ∀ (l : List Char) (c : Char) (r : List Char),
      (∀ x ∈ l, p x = true) → p c = false →
      (l ++ c :: r).takeWhile p = l ∧ (l ++ c :: r).dropWhile p = c :: r := by
  intro l
  induction l with
  | nil =>
    intro c r _ hc
    simp [List.takeWhile_cons, List.dropWhile_cons, hc]
  | cons a l ih =>
    intro c r hall hc
    have ha : p a = true := hall a (List.mem_cons_self _ _)
    have hrest : ∀ x ∈ l, p x = true := fun x hx => hall x (List.mem_cons_of_mem _ hx)
    obtain ⟨ht, hd⟩ := ih c r hrest hc
    simp [List.takeWhile_cons, List.dropWhile_cons, ha, ht, hd]

/-- C9: confirmed.  `locate_parse_type` recognizes `file`, `filename`,
`any`, `AudioFormat` and `prio` ASCII case-insensitively; `base`,
`modified-since` and `added-since` resolve only on an exact match (so
`Base` is not the base filter); and a word that resolves to no keyword
and no tag name makes `ExpectFilterType` fail with
`Unknown filter type: <name>`.  (The tag-name table is modelled from the
spec.) -/
theorem C9_keyword_resolution :
    (∀ w, StringEqualsCaseASCII w "file" = true ∨
          StringEqualsCaseASCII w "filename" = true →
      locate_parse_type w = LOCATE_TAG_FILE_TYPE) ∧
    (∀ w, StringEqualsCaseASCII w "any" = true →
      locate_parse_type w = LOCATE_TAG_ANY_TYPE) ∧
    (∀ w, StringEqualsCaseASCII w "AudioFormat" = true →
      locate_parse_type w = LOCATE_TAG_AUDIO_FORMAT) ∧
    (∀ w, StringEqualsCaseASCII w "prio" = true →
      locate_parse_type w = LOCATE_TAG_PRIORITY) ∧
    (∀ w, locate_parse_type w = LOCATE_TAG_BASE_TYPE ↔ w = "base") ∧
    (∀ w, locate_parse_type w = LOCATE_TAG_MODIFIED_SINCE ↔ w = "modified-since") ∧
    (∀ w, locate_parse_type w = LOCATE_TAG_ADDED_SINCE ↔ w = "added-since") ∧
    (∀ (w : String) (rest : List Char), w.data ≠ [] →
      (∀ c ∈ w.data, IsTagNameChar c = true) →
      ExpectFilterType (w.data ++ ' ' :: rest) =
        if locate_parse_type w = TAG_NUM_OF_ITEM_TYPES then
          .error ("Unknown filter type: " ++ w)
        else
          .ok (locate_parse_type w, StripLeft rest)) ∧
    locate_parse_type "Base" = TAG_NUM_OF_ITEM_TYPES := by
  refine ⟨?hfile, ?hany, ?haf, ?hprio, ?hbase, ?hms, ?has, ?heft, by decide⟩
  case hfile =>
    intro w hw
    rw [locate_parse_type, if_pos (by rcases hw with h | h <;> simp [h])]
  case hany =>
    intro w hw
    have c1 : ¬((StringEqualsCaseASCII w "file" ||
        StringEqualsCaseASCII w "filename") = true) := by
      intro h
      rcases Bool.or_eq_true _ _ ▸ h with h1 | h1
      · exact absurd (eqCase_both h1 hw) (by decide)
      · exact absurd (eqCase_both h1 hw) (by decide)
    rw [locate_parse_type, if_neg c1, if_pos hw]
  case haf =>
    intro w hw
    have c1 : ¬((StringEqualsCaseASCII w "file" ||
        StringEqualsCaseASCII w "filename") = true) := by
      intro h
      rcases Bool.or_eq_true _ _ ▸ h with h1 | h1
      · exact absurd (eqCase_both h1 hw) (by decide)
      · exact absurd (eqCase_both h1 hw) (by decide)
    have c2 : ¬(StringEqualsCaseASCII w "any" = true) :=
      fun h => absurd (eqCase_both h hw) (by decide)
    have c3 : w ≠ "base" := fun h => absurd (h ▸ hw) (by decide)
    have c4 : w ≠ "modified-since" := fun h => absurd (h ▸ hw) (by decide)
    have c5 : w ≠ "added-since" := fun h => absurd (h ▸ hw) (by decide)
    rw [locate_parse_type, if_neg c1, if_neg c2, if_neg c3, if_neg c4,
      if_neg c5, if_pos hw]
  case hprio =>
    intro w hw
    have c1 : ¬((StringEqualsCaseASCII w "file" ||
        StringEqualsCaseASCII w "filename") = true) := by
      intro h
      rcases Bool.or_eq_true _ _ ▸ h with h1 | h1
      · exact absurd (eqCase_both h1 hw) (by decide)
      · exact absurd (eqCase_both h1 hw) (by decide)
    have c2 : ¬(StringEqualsCaseASCII w "any" = true) :=
      fun h => absurd (eqCase_both h hw) (by decide)
    have c3 : w ≠ "base" := fun h => absurd (h ▸ hw) (by decide)
    have c4 : w ≠ "modified-since" := fun h => absurd (h ▸ hw) (by decide)
    have c5 : w ≠ "added-since" := fun h => absurd (h ▸ hw) (by decide)
    have c6 : ¬(StringEqualsCaseASCII w "AudioFormat" = true) :=
      fun h => absurd (eqCase_both h hw) (by decide)
    rw [locate_parse_type, if_neg c1, if_neg c2, if_neg c3, if_neg c4,
      if_neg c5, if_neg c6, if_pos hw]
  case hbase =>
    intro w
    constructor
    · intro h
      rw [locate_parse_type] at h
      split_ifs at h with h1 h2 h3 h4 h5 h6 h7
      · exact absurd h (by decide)
      · exact absurd h (by decide)
      · exact h3
      · exact absurd h (by decide)
      · exact absurd h (by decide)
      · exact absurd h (by decide)
      · exact absurd h (by decide)
      · have hle := tag_name_parse_i_le w
        rw [h] at hle
        unfold LOCATE_TAG_BASE_TYPE at hle
        omega
    · intro h
      subst h
      decide
  case hms =>
    intro w
    constructor
    · intro h
      rw [locate_parse_type] at h
      split_ifs at h with h1 h2 h3 h4 h5 h6 h7
      · exact absurd h (by decide)
      · exact absurd h (by decide)
      · exact absurd h (by decide)
      · exact h4
      · exact absurd h (by decide)
      · exact absurd h (by decide)
      · exact absurd h (by decide)
      · have hle := tag_name_parse_i_le w
        rw [h] at hle
        unfold LOCATE_TAG_MODIFIED_SINCE at hle
        omega
    · intro h
      subst h
      decide
  case has =>
    intro w
    constructor
    · intro h
      rw [locate_parse_type] at h
      split_ifs at h with h1 h2 h3 h4 h5 h6 h7
      · exact absurd h (by decide)
      · exact absurd h (by decide)
      · exact absurd h (by decide)
      · exact absurd h (by decide)
      · exact h5
      · exact absurd h (by decide)
      · exact absurd h (by decide)
      · have hle := tag_name_parse_i_le w
        rw [h] at hle
        unfold LOCATE_TAG_ADDED_SINCE at hle
        omega
    · intro h
      subst h
      decide
  case heft =>
    intro w rest hne hchars
    obtain ⟨ht, hd⟩ :=
      takeWhile_append_stop w.data ' ' rest hchars (by decide)
    have hmk : String.mk w.data = w := by cases w; rfl
    rw [ExpectFilterType, ExpectWord]
    simp only [ht, hd]
    rw [if_neg hne, hmk]
    show (if locate_parse_type w = TAG_NUM_OF_ITEM_TYPES then
            Except.error ("Unknown filter type: " ++ w)
          else Except.ok (locate_parse_type w, StripLeft (' ' :: rest))) = _
    rfl

/-- C9 witness: case variants of `file` and `prio` resolve, and the
capitalised `Base` is rejected as an unknown filter type. -/
theorem C9_keyword_resolution_witness :
    locate_parse_type "FILE" = LOCATE_TAG_FILE_TYPE ∧
    locate_parse_type "PRIO" = LOCATE_TAG_PRIORITY ∧
    ExpectFilterType ("Base".data ++ ' ' :: "\x22x\x22)".data) =
      .error ("Unknown filter type: " ++ "Base") := by
  obtain ⟨h1, _, _, h4, _, _, _, h8, h9⟩ := C9_keyword_resolution
  refine ⟨h1 "FILE" (Or.inl (by decide)), h4 "PRIO" (by decide), ?_⟩
  rw [h8 "Base" "\x22x\x22)".data (by decide) (by decide), if_pos h9]

/-- C10: confirmed.  The flat legacy entry resolves `prio` and
`AudioFormat` to the internal sentinel codes, which fall through the
`switch` to the generic tag branch: no `Unknown filter type` error is
raised and the constructed child is a `TagSongFilter` whose tag code is
the out-of-range sentinel (`LOCATE_TAG_PRIORITY` resp.
`LOCATE_TAG_AUDIO_FORMAT`, both above `TAG_NUM_OF_ITEM_TYPES`), not a
priority or audio-format filter. -/
theorem C10_flat_prio_audioformat_fall_through (value : String) (fold_case : Bool) :
    SongFilter.ParseTagValue "prio" value fold_case =
      .ok (.TagSongFilter LOCATE_TAG_PRIORITY
        ⟨value, fold_case, if fold_case then .ANYWHERE else .FULL, false⟩) ∧
    SongFilter.ParseTagValue "AudioFormat" value fold_case =
      .ok (.TagSongFilter LOCATE_TAG_AUDIO_FORMAT
        ⟨value, fold_case, if fold_case then .ANYWHERE else .FULL, false⟩) ∧
    TAG_NUM_OF_ITEM_TYPES < LOCATE_TAG_PRIORITY ∧
    TAG_NUM_OF_ITEM_TYPES < LOCATE_TAG_AUDIO_FORMAT :=
  ⟨rfl, rfl, by decide, by decide⟩
